import Mathlib

/-!
Shallow embedding of the Safe multisig action provider of
`hello-world-computer` (`src/lib/web3/agentkit/action-providers/safe/index.ts`)
together with the Privy wallet provider (`privyWalletProvider.ts`) and the
persistence interface it consumes.

External SDK behaviour (the `@safe-global/protocol-kit` client, the viem
wallet client, the RPC node) is modelled by an environment `Env` of
`Except`-valued oracles, one per awaited call, applied to the same arguments
the source passes.  Each action is embedded as a `…Body` function that mirrors
the statement sequence inside the source's `try` block (every `await` that can
reject becomes a `match` on an `Except`), plus a wrapper that performs the
`catch`, turning a raised error into the structured `{error}` result value of
the corresponding `…ReturnType`.
-/

/-- A viem chain, as far as the embedded code observes it: the source only
uses the chain object's identity (`base` vs `baseSepolia`) and its default
RPC URL. -/
structure Chain where
  name : String
  rpcUrl : String
deriving DecidableEq, Repr

/-- `base` from `viem/chains` (only the fields the source reads). -/
def base : Chain := { name := "Base", rpcUrl := "https://mainnet.base.org" }

/-- `baseSepolia` from `viem/chains` (only the fields the source reads). -/
def baseSepolia : Chain := { name := "Base Sepolia", rpcUrl := "https://sepolia.base.org" }

/-- The process-wide configuration read by every action:
`process.env.NEXT_PUBLIC_ACTIVE_CHAIN`, a string or absent. -/
structure Config where
  NEXT_PUBLIC_ACTIVE_CHAIN : Option String
deriving DecidableEq, Repr

/-- The chain selection performed at the top of each action:
`process.env.NEXT_PUBLIC_ACTIVE_CHAIN === "base" ? base : baseSepolia`. -/
def activeChain (cfg : Config) : Chain :=
  if cfg.NEXT_PUBLIC_ACTIVE_CHAIN = some "base" then base else baseSepolia

/-- One entry of the `transactions` batch of `CreateSafeTransactionSchema`:
`{to, value, data}`, all strings (see `schemas.ts`); the source field `to`
is rendered `toAddress` because `to` is a reserved token here. -/
structure MetaTransactionData where
  toAddress : String
  value : String
  data : String
deriving DecidableEq, Repr

/-- The `data` field of an `EthSafeTransaction`, produced by the SDK's
`protocolKit.createTransaction` and only ever passed through opaquely by the
embedded code (re-wrapped by `new EthSafeTransaction(safeTransaction.data)`),
so it is modelled as an opaque serialized payload. -/
abbrev SafeTxData := String

/-- JS `Map.set` on an association list with distinct keys: overwrite the
entry of an existing key in place, otherwise append the new entry at the
end (JS maps preserve insertion order). -/
def mapSet : List (String × String) → String → String → List (String × String)
  | [], k, v => [(k, v)]
  | p :: t, k, v => if p.1 = k then (k, v) :: t else p :: mapSet t k v

/-- The SDK's `EthSafeTransaction`, as far as the embedded code observes it:
an opaque `data` payload plus the `signatures` map, keyed by signer address
with the signature bytes as value.  `signatures.size` is the length of the
list. -/
structure EthSafeTransaction where
  data : SafeTxData
  signatures : List (String × String)
deriving DecidableEq, Repr

/-- The SDK's `EthSafeTransaction.addSignature`: stores the signature in the
`signatures` map keyed by its signer, overwriting an existing entry for the
same signer (JS `Map.set` semantics). -/
def EthSafeTransaction.addSignature (tx : EthSafeTransaction)
    (signer signatureData : String) : EthSafeTransaction :=
  { tx with signatures := mapSet tx.signatures signer signatureData }

/-- A row of the `SafeTransaction` table (`schema.ts`): the unique
`transactionHash` key, the `safeAddress`, and the serialized transaction
payload (`transactionData`), which carries the transaction's `data` and its
accumulated `signatures`. -/
structure StoredSafeTransaction where
  transactionHash : String
  safeAddress : String
  transaction : EthSafeTransaction
deriving DecidableEq, Repr

/-- Modelled from the spec: the `SafeTransaction` table's denormalized
`signatureCount` column (the `queries` module that populates it is not part
of the embedded sources).  Per the spec's data model it mirrors the
"evolving set of signatures", so it is the size of the stored signature
set. -/
def StoredSafeTransaction.signatureCount (r : StoredSafeTransaction) : Nat :=
  r.transaction.signatures.length

/-- The persistence layer's state: the rows of the `SafeTransaction` table,
at most one per transaction hash. -/
abbrev Db := List StoredSafeTransaction

/-- Modelled from the spec: `saveSafeTransaction({transactionHash,
safeAddress, transactionData})` from `lib/db/queries` (not among the embedded
sources).  The table keys rows by a unique `transactionHash` and the actions
re-persist under an existing hash each time a party signs, so saving upserts
the row for that hash. -/
def saveSafeTransaction : Db → StoredSafeTransaction → Db
  | [], r => [r]
  | row :: t, r =>
    if row.transactionHash = r.transactionHash then r :: t
    else row :: saveSafeTransaction t r

/-- Modelled from the spec: `getSafeTransactionByHash({transactionHash}) →
record | absent` from `lib/db/queries` (not among the embedded sources). -/
def getSafeTransactionByHash (db : Db) (transactionHash : String) :
    Option StoredSafeTransaction :=
  db.find? (fun r => r.transactionHash = transactionHash)

/-- The signature-reattachment loop of the module-level `getTransactionByHash`
helper: starting from `new EthSafeTransaction(safeTransaction.data)` (whose
signature map is empty), `addSignature` is called for each `[signer,
signature]` entry of the stored signatures object. -/
def rebuildSignatures (l : List (String × String)) : List (String × String) :=
  l.foldl (fun acc p => mapSet acc p.1 p.2) []

/-- The reconstruction performed by `getTransactionByHash`: a fresh
`EthSafeTransaction` built from the stored `data` with every stored signature
added back via `addSignature`. -/
def reconstructTransaction (t : EthSafeTransaction) : EthSafeTransaction :=
  { data := t.data, signatures := rebuildSignatures t.signatures }

/-- The module-level `getTransactionByHash` helper of `safe/index.ts`: load
the stored row, throw `"Transaction not found"` when absent, otherwise
rebuild the `EthSafeTransaction` with its signatures reattached. -/
def getTransactionByHash (db : Db) (transactionHash : String) :
    Except String EthSafeTransaction :=
  match getSafeTransactionByHash db transactionHash with
  | none => .error "Transaction not found"
  | some storedTx => .ok (reconstructTransaction storedTx.transaction)

/-- A prepared EVM transaction request (`prepareTransactionRequest` input and
output): `{to, value, data, chain}` as the source builds it; the source field `to`
is rendered `toAddress` because `to` is a reserved token here. -/
structure PreparedTx where
  toAddress : String
  value : Nat
  data : String
  chain : Chain
deriving DecidableEq, Repr

/-- The deployment transaction returned by the SDK's
`createSafeDeploymentTransaction`: `{to, value, data}`; the source field
`to` is rendered `toAddress` because `to` is a reserved token here. -/
structure DeploymentTransaction where
  toAddress : String
  value : Nat
  data : String
deriving DecidableEq, Repr

/-- The `SafeAccountConfig` the source builds in `createSafe`. -/
structure SafeAccountConfig where
  owners : List String
  threshold : Nat
deriving DecidableEq, Repr

/-- The oracle environment: one `Except`-valued function per awaited external
call, applied to the same arguments the source passes.  `Safe.init` is
flattened: the calls made on the resulting protocol-kit handle are keyed by
the data that determined the handle. -/
structure Env where
  safeInitPredicted : Chain → String → SafeAccountConfig → Except String Unit
  predictedSafeAddress : SafeAccountConfig → Except String String
  createSafeDeploymentTransaction : SafeAccountConfig → Except String DeploymentTransaction
  getExternalSigner : Except String Unit
  prepareTransactionRequest : PreparedTx → Except String (Option PreparedTx)
  waitForTransactionReceipt : String → Except String Unit
  connect : String → Except String Unit
  connectedSafeAddress : String → Except String String
  safeInitExisting : Chain → String → String → Except String Unit
  createTransaction : String → List MetaTransactionData → Except String SafeTxData
  getTransactionHash : SafeTxData → Except String String
  getOnchainIdentifier : String
  getEncodedTransaction : EthSafeTransaction → Except String String
  walletSignMessage : String → String → Except String String
  adjustVInSignature : String → String → String → Except String String
  walletSendTransaction : String → Chain → Option PreparedTx → Except String String
  publicGetBalance : String → Except String Nat

/-- The Privy wallet provider's observable state: the wrapped viem wallet
client's optional configured account (its address) and optional chain. -/
structure PrivyWalletProvider where
  account : Option String
  chain : Option Chain
deriving DecidableEq, Repr

/-- `PrivyWalletProvider.getAddress`:
`this.#walletClient.account?.address ?? ""`. -/
def PrivyWalletProvider.getAddress (w : PrivyWalletProvider) : String :=
  match w.account with
  | none => ""
  | some address => address

/-- `PrivyWalletProvider.signMessage`: throws `"Account not found"` when the
wallet client has no account, otherwise signs via the wallet client. -/
def PrivyWalletProvider.signMessage (env : Env) (w : PrivyWalletProvider)
    (message : String) : Except String String :=
  match w.account with
  | none => .error "Account not found"
  | some account => env.walletSignMessage account message

/-- `PrivyWalletProvider.sendTransaction`: throws `"Account not found"` when
the wallet client has no account, then `"Chain not found"` when it has no
chain, otherwise submits via the wallet client and returns the hash. -/
def PrivyWalletProvider.sendTransaction (env : Env) (w : PrivyWalletProvider)
    (transaction : Option PreparedTx) : Except String String :=
  match w.account with
  | none => .error "Account not found"
  | some account =>
    match w.chain with
    | none => .error "Chain not found"
    | some chain => env.walletSendTransaction account chain transaction

/-- `PrivyWalletProvider.getBalance`: throws `"Account not found"` when the
wallet client has no account, otherwise queries the public client. -/
def PrivyWalletProvider.getBalance (env : Env) (w : PrivyWalletProvider) :
    Except String Nat :=
  match w.account with
  | none => .error "Account not found"
  | some account => env.publicGetBalance account

/-- The module-level `signTransaction` helper of `safe/index.ts`: load the
stored transaction (signatures reattached), sign the raw transaction hash with
the wallet, adjust the signature's `v` value, and add the resulting signature
(keyed by the wallet's address) to the transaction. -/
def signTransaction (env : Env) (walletProvider : PrivyWalletProvider)
    (db : Db) (transactionHash : String) : Except String EthSafeTransaction :=
  match getTransactionByHash db transactionHash with
  | .error e => .error e
  | .ok safeTx =>
    match PrivyWalletProvider.signMessage env walletProvider transactionHash with
    | .error e => .error e
    | .ok signedTxHash =>
      match env.adjustVInSignature signedTxHash transactionHash
          (PrivyWalletProvider.getAddress walletProvider) with
      | .error e => .error e
      | .ok signature =>
        .ok (safeTx.addSignature (PrivyWalletProvider.getAddress walletProvider) signature)

/-- The input of the `create_safe` action (`CreateSafeSchema`). -/
structure CreateSafeArgs where
  owners : List String
  threshold : Nat
deriving DecidableEq, Repr

/-- The input of the `create_safe_transaction` action
(`CreateSafeTransactionSchema`). -/
structure CreateSafeTransactionArgs where
  safeAddress : String
  transactions : List MetaTransactionData
deriving DecidableEq, Repr

/-- The input of the `sign_safe_transaction` action
(`SignSafeTransactionSchema`). -/
structure SignSafeTransactionArgs where
  safeAddress : String
  transactionHash : String
deriving DecidableEq, Repr

/-- The input of the `execute_safe_transaction` action
(`ExecuteSafeTransactionSchema`). -/
structure ExecuteSafeTransactionArgs where
  safeAddress : String
  transactionHash : String
deriving DecidableEq, Repr

/-- The success variant of `CreateSafeReturnType`. -/
structure CreateSafeOk where
  safeAddress : String
  transactionHash : String
  threshold : Nat
  owners : List String
deriving DecidableEq, Repr

/-- `CreateSafeReturnType`: the success payload or a structured `{error}`
value (the source stores the caught `Error` object there; the model keeps
its message). -/
inductive CreateSafeResult where
  | ok (safeAddress transactionHash : String) (threshold : Nat) (owners : List String)
  | error (e : String)
deriving DecidableEq, Repr

/-- `CreateSafeTransactionReturnType`: `{transactionHash, signatureCount}` or
a structured `{error}` value holding the caught error's message. -/
inductive CreateSafeTransactionResult where
  | ok (transactionHash : String) (signatureCount : Nat)
  | error (e : String)
deriving DecidableEq, Repr

/-- `SignSafeTransactionReturnType`: `{transactionHash, signatureCount}` or a
structured `{error}` value holding the caught error's message. -/
inductive SignSafeTransactionResult where
  | ok (transactionHash : String) (signatureCount : Nat)
  | error (e : String)
deriving DecidableEq, Repr

/-- `ExecuteSafeTransactionReturnType`: `{transactionHash}` or a structured
`{error}` value holding the caught error's message. -/
inductive ExecuteSafeTransactionResult where
  | ok (transactionHash : String)
  | error (e : String)
deriving DecidableEq, Repr

/-- The `safeAccountConfig` object `createSafe` builds from its arguments and
hands to `Safe.init` (and hence to address prediction and deployment). -/
def safeAccountConfigOf (args : CreateSafeArgs) : SafeAccountConfig :=
  { owners := args.owners, threshold := args.threshold }

/-- The statement sequence inside `createSafe`'s `try` block: select the
chain, build the `SafeAccountConfig`, initialise the protocol kit on the
predicted safe, predict the address, build the deployment transaction,
prepare it (throwing `"Failed to prepare transaction request"` on a falsy
result), send it through the wallet provider, wait for the receipt, connect
to the predicted address and return its reported address together with the
input `threshold` and `owners`. -/
def createSafeBody (env : Env) (cfg : Config) (walletProvider : PrivyWalletProvider)
    (args : CreateSafeArgs) : Except String CreateSafeOk :=
  let chain := activeChain cfg
  let safeAccountConfig := safeAccountConfigOf args
  match env.safeInitPredicted chain (PrivyWalletProvider.getAddress walletProvider)
      safeAccountConfig with
  | .error e => .error e
  | .ok () =>
    match env.predictedSafeAddress safeAccountConfig with
    | .error e => .error e
    | .ok predictedSafeAddress =>
      match env.createSafeDeploymentTransaction safeAccountConfig with
      | .error e => .error e
      | .ok deploymentTransaction =>
        match env.getExternalSigner with
        | .error e => .error e
        | .ok () =>
          match env.prepareTransactionRequest
              { toAddress := deploymentTransaction.toAddress,
                value := deploymentTransaction.value,
                data := deploymentTransaction.data, chain := chain } with
          | .error e => .error e
          | .ok none => .error "Failed to prepare transaction request"
          | .ok (some tx) =>
            match PrivyWalletProvider.sendTransaction env walletProvider (some tx) with
            | .error e => .error e
            | .ok transactionHash =>
              match env.waitForTransactionReceipt transactionHash with
              | .error e => .error e
              | .ok () =>
                match env.connect predictedSafeAddress with
                | .error e => .error e
                | .ok () =>
                  match env.connectedSafeAddress predictedSafeAddress with
                  | .error e => .error e
                  | .ok deployedSafeAddress =>
                    .ok { safeAddress := deployedSafeAddress,
                          transactionHash := transactionHash,
                          threshold := args.threshold, owners := args.owners }

/-- The `create_safe` action: run the `try` block and catch any raised error
into the `{error}` variant of `CreateSafeReturnType`. -/
def SafeActionProvider.createSafe (env : Env) (cfg : Config)
    (walletProvider : PrivyWalletProvider) (args : CreateSafeArgs) : CreateSafeResult :=
  match createSafeBody env cfg walletProvider args with
  | .ok r => .ok r.safeAddress r.transactionHash r.threshold r.owners
  | .error e => .error e

/-- The statement sequence inside `createSafeTransaction`'s `try` block:
select the chain, initialise the protocol kit on the existing safe, build the
transaction from the batch (a fresh transaction carries no signatures),
compute its hash, save it, sign it via the module-level `signTransaction`
helper (which reloads it from the database), save the signed transaction, and
return the hash with the signature count.  Database writes performed before a
later failure are kept, as in the source. -/
def createSafeTransactionBody (env : Env) (cfg : Config)
    (walletProvider : PrivyWalletProvider) (db : Db)
    (args : CreateSafeTransactionArgs) : Except String (String × Nat) × Db :=
  let chain := activeChain cfg
  let signerAddress := PrivyWalletProvider.getAddress walletProvider
  match env.safeInitExisting chain signerAddress args.safeAddress with
  | .error e => (.error e, db)
  | .ok () =>
    match env.createTransaction args.safeAddress args.transactions with
    | .error e => (.error e, db)
    | .ok safeTxData =>
      let safeTx : EthSafeTransaction := { data := safeTxData, signatures := [] }
      match env.getTransactionHash safeTxData with
      | .error e => (.error e, db)
      | .ok transactionHash =>
        let db1 := saveSafeTransaction db
          { transactionHash := transactionHash, safeAddress := args.safeAddress,
            transaction := safeTx }
        match signTransaction env walletProvider db1 transactionHash with
        | .error e => (.error e, db1)
        | .ok signedTx =>
          let signatureCount := signedTx.signatures.length
          let db2 := saveSafeTransaction db1
            { transactionHash := transactionHash, safeAddress := args.safeAddress,
              transaction := signedTx }
          (.ok (transactionHash, signatureCount), db2)

/-- The `create_safe_transaction` action: run the `try` block and catch any
raised error into the `{error}` variant of `CreateSafeTransactionReturnType`;
the catch does not undo database writes already performed. -/
def SafeActionProvider.createSafeTransaction (env : Env) (cfg : Config)
    (walletProvider : PrivyWalletProvider) (db : Db)
    (args : CreateSafeTransactionArgs) : CreateSafeTransactionResult × Db :=
  match createSafeTransactionBody env cfg walletProvider db args with
  | (.ok (transactionHash, signatureCount), db1) => (.ok transactionHash signatureCount, db1)
  | (.error e, db1) => (.error e, db1)

/-- The statement sequence inside `signSafeTransaction`'s `try` block: sign
the stored transaction via the module-level `signTransaction` helper, then
save it and return the hash with the new signature count.  The save happens
only after signing succeeds. -/
def signSafeTransactionBody (env : Env) (walletProvider : PrivyWalletProvider)
    (db : Db) (args : SignSafeTransactionArgs) : Except String (String × Nat) × Db :=
  match signTransaction env walletProvider db args.transactionHash with
  | .error e => (.error e, db)
  | .ok safeTx =>
    let signatureCount := safeTx.signatures.length
    let db1 := saveSafeTransaction db
      { transactionHash := args.transactionHash, safeAddress := args.safeAddress,
        transaction := safeTx }
    (.ok (args.transactionHash, signatureCount), db1)

/-- The `sign_safe_transaction` action: run the `try` block and catch any
raised error into the `{error}` variant of `SignSafeTransactionReturnType`. -/
def SafeActionProvider.signSafeTransaction (env : Env)
    (walletProvider : PrivyWalletProvider) (db : Db)
    (args : SignSafeTransactionArgs) : SignSafeTransactionResult × Db :=
  match signSafeTransactionBody env walletProvider db args with
  | (.ok (transactionHash, signatureCount), db1) => (.ok transactionHash signatureCount, db1)
  | (.error e, db1) => (.error e, db1)

/-- The statement sequence inside `executeSafeTransaction`'s `try` block:
select the chain, initialise the protocol kit on the safe, load the stored
transaction (signatures reattached), encode it, append the on-chain
identifier, prepare the request, send it through the wallet provider, wait
for the receipt, and return the execution transaction hash.  No signature
check of any kind is performed on the loaded transaction. -/
def executeSafeTransactionBody (env : Env) (cfg : Config)
    (walletProvider : PrivyWalletProvider) (db : Db)
    (args : ExecuteSafeTransactionArgs) : Except String String :=
  let chain := activeChain cfg
  match env.safeInitExisting chain (PrivyWalletProvider.getAddress walletProvider)
      args.safeAddress with
  | .error e => .error e
  | .ok () =>
    match getTransactionByHash db args.transactionHash with
    | .error e => .error e
    | .ok safeTx =>
      let onchainIdentifier := env.getOnchainIdentifier
      match env.getEncodedTransaction safeTx with
      | .error e => .error e
      | .ok encodedTransaction =>
        let transaction : PreparedTx :=
          { toAddress := args.safeAddress, value := 0,
            data := encodedTransaction ++ onchainIdentifier, chain := chain }
        match env.getExternalSigner with
        | .error e => .error e
        | .ok () =>
          match env.prepareTransactionRequest transaction with
          | .error e => .error e
          | .ok prepTx =>
            match PrivyWalletProvider.sendTransaction env walletProvider prepTx with
            | .error e => .error e
            | .ok hash =>
              match env.waitForTransactionReceipt hash with
              | .error e => .error e
              | .ok () => .ok hash

/-- The `execute_safe_transaction` action: run the `try` block and catch any
raised error into the `{error}` variant of
`ExecuteSafeTransactionReturnType`. -/
def SafeActionProvider.executeSafeTransaction (env : Env) (cfg : Config)
    (walletProvider : PrivyWalletProvider) (db : Db)
    (args : ExecuteSafeTransactionArgs) : ExecuteSafeTransactionResult :=
  match executeSafeTransactionBody env cfg walletProvider db args with
  | .ok hash => .ok hash
  | .error e => .error e

/-- The `Network` object the agentkit framework passes to
`supportsNetwork`. -/
structure Network where
  protocolFamily : String
  networkId : Option String
  chainId : Option String
deriving DecidableEq, Repr

/-- `SafeActionProvider.supportsNetwork = (_: Network) => true`. -/
def SafeActionProvider.supportsNetwork (_ : Network) : Bool := true

/-- A signature map is well formed when its signer keys are pairwise
distinct, as in a JS `Map`. -/
def keysNodup (m : List (String × String)) : Prop := (m.map Prod.fst).Nodup

instance (m : List (String × String)) : Decidable (keysNodup m) := by
  unfold keysNodup; infer_instance

theorem mapSet_length (m : List (String × String)) (k v : String) :
    (mapSet m k v).length =
      if k ∈ m.map Prod.fst then m.length else m.length + 1 := by
  induction m with
  | nil => simp [mapSet]
  | cons p t ih =>
    by_cases h : p.1 = k
    · simp [mapSet, h]
    · have h' : ¬ k = p.1 := fun hh => h hh.symm
      by_cases hk : k ∈ t.map Prod.fst
      · simp [mapSet, h, ih, hk, h']
      · simp [mapSet, h, ih, hk, h']

theorem length_le_mapSet (m : List (String × String)) (k v : String) :
    m.length ≤ (mapSet m k v).length := by
  rw [mapSet_length]
  split <;> omega

theorem mapSet_length_of_mem (m : List (String × String)) (k v : String)
    (h : k ∈ m.map Prod.fst) : (mapSet m k v).length = m.length := by
  rw [mapSet_length, if_pos h]

theorem mapSet_of_not_mem (m : List (String × String)) (k v : String)
    (h : k ∉ m.map Prod.fst) : mapSet m k v = m ++ [(k, v)] := by
  induction m with
  | nil => simp [mapSet]
  | cons p t ih =>
    have hne : ¬ p.1 = k := by
      intro hh
      exact h (by simp [hh])
    have ht : k ∉ t.map Prod.fst := fun hm => h (by simp [hm])
    simp [mapSet, hne, ih ht]

theorem mapSet_keys (m : List (String × String)) (k v : String) :
    (mapSet m k v).map Prod.fst =
      if k ∈ m.map Prod.fst then m.map Prod.fst else m.map Prod.fst ++ [k] := by
  induction m with
  | nil => simp [mapSet]
  | cons p t ih =>
    by_cases h : p.1 = k
    · simp [mapSet, h]
    · have h' : ¬ k = p.1 := fun hh => h hh.symm
      by_cases hk : k ∈ t.map Prod.fst
      · simp [mapSet, h, ih, hk, h']
      · simp [mapSet, h, ih, hk, h']

theorem mem_mapSet_keys (m : List (String × String)) (k v : String) :
    k ∈ (mapSet m k v).map Prod.fst := by
  rw [mapSet_keys]
  split
  · assumption
  · simp

theorem keysNodup_mapSet (m : List (String × String)) (k v : String)
    (h : keysNodup m) : keysNodup (mapSet m k v) := by
  unfold keysNodup at h ⊢
  rw [mapSet_keys]
  by_cases hk : k ∈ m.map Prod.fst
  · rwa [if_pos hk]
  · rw [if_neg hk]
    simp [List.nodup_append, h, hk]

theorem rebuild_foldl_of_nodup :
    ∀ (l acc : List (String × String)), ((acc ++ l).map Prod.fst).Nodup →
      l.foldl (fun a p => mapSet a p.1 p.2) acc = acc ++ l := by
  intro l
  induction l with
  | nil =>
    intro acc _
    simp
  | cons p t ih =>
    intro acc h
    have hmap : (acc ++ p :: t).map Prod.fst
        = acc.map Prod.fst ++ p.1 :: t.map Prod.fst := by simp
    rw [hmap] at h
    have hnotin : p.1 ∉ acc.map Prod.fst := by
      intro hmem
      exact (List.nodup_append.mp h).2.2 hmem (List.mem_cons_self _ _)
    have hstep : mapSet acc p.1 p.2 = acc ++ [p] := by
      rw [mapSet_of_not_mem _ _ _ hnotin]
    have h' : (((acc ++ [p]) ++ t).map Prod.fst).Nodup := by
      simpa [List.append_assoc] using h
    rw [List.foldl_cons, hstep, ih (acc ++ [p]) h']
    simp

theorem rebuildSignatures_of_keysNodup (l : List (String × String))
    (h : keysNodup l) : rebuildSignatures l = l := by
  unfold rebuildSignatures
  have := rebuild_foldl_of_nodup l [] (by simpa [keysNodup] using h)
  simpa using this

theorem keysNodup_rebuild_foldl :
    ∀ (l acc : List (String × String)), keysNodup acc →
      keysNodup (l.foldl (fun a p => mapSet a p.1 p.2) acc) := by
  intro l
  induction l with
  | nil =>
    intro acc h
    simpa using h
  | cons p t ih =>
    intro acc h
    rw [List.foldl_cons]
    exact ih _ (keysNodup_mapSet _ _ _ h)

theorem keysNodup_rebuildSignatures (l : List (String × String)) :
    keysNodup (rebuildSignatures l) :=
  keysNodup_rebuild_foldl l [] (by simp [keysNodup])

theorem getSafeTransactionByHash_save (db : Db) (r : StoredSafeTransaction) :
    getSafeTransactionByHash (saveSafeTransaction db r) r.transactionHash = some r := by
  induction db with
  | nil => simp [saveSafeTransaction, getSafeTransactionByHash]
  | cons row t ih =>
    by_cases h : row.transactionHash = r.transactionHash
    · simp [saveSafeTransaction, h, getSafeTransactionByHash]
    · simpa [saveSafeTransaction, h, getSafeTransactionByHash] using ih

/-- Forward computation of the `sign_safe_transaction` action when the stored
row exists, the wallet has an account, and both signing oracles succeed. -/
theorem signSafeTransaction_eq {env : Env} {w : PrivyWalletProvider} {db : Db}
    {args : SignSafeTransactionArgs} {rec : StoredSafeTransaction}
    {acct m sig : String}
    (hget : getSafeTransactionByHash db args.transactionHash = some rec)
    (hacct : w.account = some acct)
    (hsm : env.walletSignMessage acct args.transactionHash = .ok m)
    (hadj : env.adjustVInSignature m args.transactionHash
      (PrivyWalletProvider.getAddress w) = .ok sig) :
    SafeActionProvider.signSafeTransaction env w db args =
      (.ok args.transactionHash
        (mapSet (rebuildSignatures rec.transaction.signatures)
          (PrivyWalletProvider.getAddress w) sig).length,
       saveSafeTransaction db
         { transactionHash := args.transactionHash, safeAddress := args.safeAddress,
           transaction := { data := rec.transaction.data,
                            signatures := mapSet
                              (rebuildSignatures rec.transaction.signatures)
                              (PrivyWalletProvider.getAddress w) sig } }) := by
  simp [SafeActionProvider.signSafeTransaction, signSafeTransactionBody, signTransaction,
    getTransactionByHash, PrivyWalletProvider.signMessage, hget, hacct, hsm, hadj,
    reconstructTransaction, EthSafeTransaction.addSignature]

/-- Inversion of a successful `sign_safe_transaction` run: the stored row
existed, the returned hash is the input hash, the returned count is the size
of the re-signed map, and the new database is the upsert of the re-signed
transaction. -/
theorem signSafeTransaction_ok_inv {env : Env} {w : PrivyWalletProvider} {db : Db}
    {args : SignSafeTransactionArgs} {h : String} {c : Nat} {db' : Db}
    (heq : SafeActionProvider.signSafeTransaction env w db args = (.ok h c, db')) :
    ∃ rec sig,
      getSafeTransactionByHash db args.transactionHash = some rec ∧
      h = args.transactionHash ∧
      c = (mapSet (rebuildSignatures rec.transaction.signatures)
            (PrivyWalletProvider.getAddress w) sig).length ∧
      db' = saveSafeTransaction db
        { transactionHash := args.transactionHash, safeAddress := args.safeAddress,
          transaction := { data := rec.transaction.data,
                           signatures := mapSet
                             (rebuildSignatures rec.transaction.signatures)
                             (PrivyWalletProvider.getAddress w) sig } } := by
  rcases hget : getSafeTransactionByHash db args.transactionHash with _ | rec
  · simp [SafeActionProvider.signSafeTransaction, signSafeTransactionBody,
      signTransaction, getTransactionByHash, hget] at heq
  · rcases hsm : PrivyWalletProvider.signMessage env w args.transactionHash with e | m
    · simp [SafeActionProvider.signSafeTransaction, signSafeTransactionBody,
        signTransaction, getTransactionByHash, hget, hsm] at heq
    · rcases hadj : env.adjustVInSignature m args.transactionHash
          (PrivyWalletProvider.getAddress w) with e | sig
      · simp [SafeActionProvider.signSafeTransaction, signSafeTransactionBody,
          signTransaction, getTransactionByHash, hget, hsm, hadj] at heq
      · refine ⟨rec, sig, rfl, ?_⟩
        simp [SafeActionProvider.signSafeTransaction, signSafeTransactionBody,
          signTransaction, getTransactionByHash, hget, hsm, hadj,
          reconstructTransaction, EthSafeTransaction.addSignature,
          Prod.ext_iff] at heq
        obtain ⟨⟨hh, hc⟩, hdb⟩ := heq
        exact ⟨hh.symm, hc.symm, hdb.symm⟩

/-- An oracle environment for concrete evaluation: every external call
succeeds with a fixed value. -/
def testEnv : Env where
  safeInitPredicted := fun _ _ _ => .ok ()
  predictedSafeAddress := fun _ => .ok "0xpredicted"
  createSafeDeploymentTransaction := fun _ =>
    .ok { toAddress := "0xfactory", value := 0, data := "0xdeploy" }
  getExternalSigner := .ok ()
  prepareTransactionRequest := fun t => .ok (some t)
  waitForTransactionReceipt := fun _ => .ok ()
  connect := fun _ => .ok ()
  connectedSafeAddress := fun a => .ok a
  safeInitExisting := fun _ _ _ => .ok ()
  createTransaction := fun _ _ => .ok "txdata"
  getTransactionHash := fun _ => .ok "0xsafetxhash"
  getOnchainIdentifier := "5afe"
  getEncodedTransaction := fun _ => .ok "0xencoded"
  walletSignMessage := fun _ m => .ok ("sig:" ++ m)
  adjustVInSignature := fun s _ _ => .ok s
  walletSendTransaction := fun _ _ _ => .ok "0xsent"
  publicGetBalance := fun _ => .ok 0

/-- An oracle environment in which every external call rejects with the same
error. -/
def failEnv (e : String) : Env where
  safeInitPredicted := fun _ _ _ => .error e
  predictedSafeAddress := fun _ => .error e
  createSafeDeploymentTransaction := fun _ => .error e
  getExternalSigner := .error e
  prepareTransactionRequest := fun _ => .error e
  waitForTransactionReceipt := fun _ => .error e
  connect := fun _ => .error e
  connectedSafeAddress := fun _ => .error e
  safeInitExisting := fun _ _ _ => .error e
  createTransaction := fun _ _ => .error e
  getTransactionHash := fun _ => .error e
  getOnchainIdentifier := ""
  getEncodedTransaction := fun _ => .error e
  walletSignMessage := fun _ _ => .error e
  adjustVInSignature := fun _ _ _ => .error e
  walletSendTransaction := fun _ _ _ => .error e
  publicGetBalance := fun _ => .error e

/-- A wallet whose client has a configured account and chain. -/
def aliceWallet : PrivyWalletProvider where
  account := some "0xalice"
  chain := some baseSepolia

/-- A second configured wallet, a distinct signer. -/
def bobWallet : PrivyWalletProvider where
  account := some "0xbob"
  chain := some baseSepolia

/-- A wallet whose client has no configured account. -/
def emptyWallet : PrivyWalletProvider where
  account := none
  chain := none

/-- A wallet with an account but no configured chain. -/
def chainlessWallet : PrivyWalletProvider where
  account := some "0xalice"
  chain := none

/-- A configuration with `NEXT_PUBLIC_ACTIVE_CHAIN` unset. -/
def testConfig : Config where
  NEXT_PUBLIC_ACTIVE_CHAIN := none

/-- Concrete `create_safe` arguments. -/
def createArgs : CreateSafeArgs where
  owners := ["0xalice", "0xbob"]
  threshold := 2

/-- Concrete `create_safe_transaction` arguments. -/
def createTxArgs : CreateSafeTransactionArgs where
  safeAddress := "0xsafe"
  transactions := [{ toAddress := "0xdead", value := "0", data := "0x" }]

/-- Concrete `sign_safe_transaction` arguments. -/
def signArgs : SignSafeTransactionArgs where
  safeAddress := "0xsafe"
  transactionHash := "0xsafetxhash"

/-- Concrete `execute_safe_transaction` arguments. -/
def execArgs : ExecuteSafeTransactionArgs where
  safeAddress := "0xsafe"
  transactionHash := "0xsafetxhash"

/-- A stored, not yet signed transaction row. -/
def storedRec : StoredSafeTransaction where
  transactionHash := "0xsafetxhash"
  safeAddress := "0xsafe"
  transaction := { data := "txdata", signatures := [] }

/-- A database holding exactly the unsigned test row. -/
def testDb : Db := [storedRec]

/-- A specialisation of the save/lookup round trip to an explicit row
literal, convenient for rewriting. -/
theorem getSafeTransactionByHash_save_mk (db : Db) (h sa : String)
    (tx : EthSafeTransaction) :
    getSafeTransactionByHash (saveSafeTransaction db ⟨h, sa, tx⟩) h = some ⟨h, sa, tx⟩ :=
  getSafeTransactionByHash_save db ⟨h, sa, tx⟩

/-- C10: `SafeActionProvider.supportsNetwork` returns `true` for every
network argument, while the chain every action actually operates on is one of
only two, selected by the process-wide `NEXT_PUBLIC_ACTIVE_CHAIN`
configuration value. -/
theorem c10_supportsNetwork_always_true :
    (∀ n : Network, SafeActionProvider.supportsNetwork n = true) ∧
    (∀ cfg : Config, activeChain cfg = base ∨ activeChain cfg = baseSepolia) := by
  constructor
  · intro n
    rfl
  · intro cfg
    unfold activeChain
    split
    · exact Or.inl rfl
    · exact Or.inr rfl

/-- C9: when the module-level `signTransaction` helper fails (the stored row
is missing, or producing the new signature fails), `signSafeTransaction`
returns the error without writing the persistence layer: the database it
returns is exactly the one it was given. -/
theorem c9_sign_no_write_on_failure (env : Env) (w : PrivyWalletProvider)
    (db : Db) (args : SignSafeTransactionArgs) (e : String)
    (hfail : signTransaction env w db args.transactionHash = .error e) :
    SafeActionProvider.signSafeTransaction env w db args = (.error e, db) := by
  simp [SafeActionProvider.signSafeTransaction, signSafeTransactionBody, hfail]

/-- Witness for C9: signing a hash with no stored row fails with
`"Transaction not found"` and leaves the (empty) database untouched. -/
theorem c9_sign_no_write_on_failure_witness :
    SafeActionProvider.signSafeTransaction testEnv aliceWallet [] signArgs =
      (.error "Transaction not found", ([] : Db)) :=
  c9_sign_no_write_on_failure testEnv aliceWallet [] signArgs "Transaction not found" rfl

/-- C4: on a transaction hash with no persisted row, `signSafeTransaction`
returns the structured `"Transaction not found"` error with the database
unchanged, and `executeSafeTransaction` (once its safe initialisation call
succeeds and reaches the lookup) returns the same structured error. -/
theorem c4_not_found_everywhere (env : Env) (cfg : Config)
    (w : PrivyWalletProvider) (db : Db) (sargs : SignSafeTransactionArgs)
    (eargs : ExecuteSafeTransactionArgs)
    (hs : getSafeTransactionByHash db sargs.transactionHash = none)
    (he : getSafeTransactionByHash db eargs.transactionHash = none)
    (hinit : env.safeInitExisting (activeChain cfg)
      (PrivyWalletProvider.getAddress w) eargs.safeAddress = .ok ()) :
    SafeActionProvider.signSafeTransaction env w db sargs =
      (.error "Transaction not found", db) ∧
    SafeActionProvider.executeSafeTransaction env cfg w db eargs =
      .error "Transaction not found" := by
  constructor
  · simp [SafeActionProvider.signSafeTransaction, signSafeTransactionBody,
      signTransaction, getTransactionByHash, hs]
  · simp [SafeActionProvider.executeSafeTransaction, executeSafeTransactionBody,
      getTransactionByHash, hinit, he]

/-- Witness for C4 at an empty database. -/
theorem c4_not_found_everywhere_witness :
    SafeActionProvider.signSafeTransaction testEnv aliceWallet [] signArgs =
      (.error "Transaction not found", ([] : Db)) ∧
    SafeActionProvider.executeSafeTransaction testEnv testConfig aliceWallet [] execArgs =
      .error "Transaction not found" :=
  c4_not_found_everywhere testEnv testConfig aliceWallet [] signArgs execArgs rfl rfl rfl

/-- C1: each of the four actions is the `try` body with a catch-all: an error
raised anywhere in the body surfaces as the structured `error` variant of the
action's return type (database writes already performed are kept), and every
run of every action yields either the success variant or the `error`
variant — no exception escapes an action. -/
theorem c1_actions_never_throw (env : Env) (cfg : Config)
    (w : PrivyWalletProvider) (db : Db) (a1 : CreateSafeArgs)
    (a2 : CreateSafeTransactionArgs) (a3 : SignSafeTransactionArgs)
    (a4 : ExecuteSafeTransactionArgs) (e : String) :
    (createSafeBody env cfg w a1 = .error e →
      SafeActionProvider.createSafe env cfg w a1 = .error e) ∧
    (∀ db1, createSafeTransactionBody env cfg w db a2 = (.error e, db1) →
      SafeActionProvider.createSafeTransaction env cfg w db a2 = (.error e, db1)) ∧
    (∀ db1, signSafeTransactionBody env w db a3 = (.error e, db1) →
      SafeActionProvider.signSafeTransaction env w db a3 = (.error e, db1)) ∧
    (executeSafeTransactionBody env cfg w db a4 = .error e →
      SafeActionProvider.executeSafeTransaction env cfg w db a4 = .error e) ∧
    ((∃ s h t o, SafeActionProvider.createSafe env cfg w a1 = .ok s h t o) ∨
      (∃ e1, SafeActionProvider.createSafe env cfg w a1 = .error e1)) ∧
    ((∃ h c, (SafeActionProvider.createSafeTransaction env cfg w db a2).1 = .ok h c) ∨
      (∃ e1, (SafeActionProvider.createSafeTransaction env cfg w db a2).1 = .error e1)) ∧
    ((∃ h c, (SafeActionProvider.signSafeTransaction env w db a3).1 = .ok h c) ∨
      (∃ e1, (SafeActionProvider.signSafeTransaction env w db a3).1 = .error e1)) ∧
    ((∃ h, SafeActionProvider.executeSafeTransaction env cfg w db a4 = .ok h) ∨
      (∃ e1, SafeActionProvider.executeSafeTransaction env cfg w db a4 = .error e1)) := by
  refine ⟨?_, ?_, ?_, ?_, ?_, ?_, ?_, ?_⟩
  · intro h
    simp [SafeActionProvider.createSafe, h]
  · intro db1 h
    simp [SafeActionProvider.createSafeTransaction, h]
  · intro db1 h
    simp [SafeActionProvider.signSafeTransaction, h]
  · intro h
    simp [SafeActionProvider.executeSafeTransaction, h]
  · cases hr : SafeActionProvider.createSafe env cfg w a1 with
    | ok s h t o => exact Or.inl ⟨s, h, t, o, rfl⟩
    | error e1 => exact Or.inr ⟨e1, rfl⟩
  · cases hr : (SafeActionProvider.createSafeTransaction env cfg w db a2).1 with
    | ok h c => exact Or.inl ⟨h, c, rfl⟩
    | error e1 => exact Or.inr ⟨e1, rfl⟩
  · cases hr : (SafeActionProvider.signSafeTransaction env w db a3).1 with
    | ok h c => exact Or.inl ⟨h, c, rfl⟩
    | error e1 => exact Or.inr ⟨e1, rfl⟩
  · cases hr : SafeActionProvider.executeSafeTransaction env cfg w db a4 with
    | ok h => exact Or.inl ⟨h, rfl⟩
    | error e1 => exact Or.inr ⟨e1, rfl⟩

/-- Witness for C1: with an environment whose underlying calls all reject
with `"boom"`, every action returns the structured error. -/
theorem c1_actions_never_throw_witness :
    SafeActionProvider.createSafe (failEnv "boom") testConfig aliceWallet createArgs =
      .error "boom" ∧
    SafeActionProvider.createSafeTransaction (failEnv "boom") testConfig aliceWallet
      testDb createTxArgs = (.error "boom", testDb) ∧
    SafeActionProvider.signSafeTransaction (failEnv "boom") aliceWallet testDb signArgs =
      (.error "boom", testDb) ∧
    SafeActionProvider.executeSafeTransaction (failEnv "boom") testConfig aliceWallet
      testDb execArgs = .error "boom" := by
  have t := c1_actions_never_throw (failEnv "boom") testConfig aliceWallet testDb
    createArgs createTxArgs signArgs execArgs "boom"
  exact ⟨t.1 rfl, t.2.1 testDb rfl, t.2.2.1 testDb rfl, t.2.2.2.1 rfl⟩

/-- An environment that rejects safe initialisation exactly when the signer
passed to it is the empty string, and otherwise behaves like `testEnv`. -/
def emptySignerEnv : Env :=
  { testEnv with
    safeInitPredicted := fun _ s _ => if s = "" then .error "no signer" else .ok () }

/-- C8: a wallet client with no configured account yields `""` from
`getAddress` (no error), while `signMessage`, `sendTransaction` and
`getBalance` throw `"Account not found"` (and `sendTransaction` throws
`"Chain not found"` when an account is configured but no chain); downstream,
`createSafe` passes the empty-string address on as the signer without raising
any unconfigured-wallet error of its own — its outcome is whatever the
underlying safe initialisation does with signer `""`. -/
theorem c8_unconfigured_wallet_behaviour (env : Env) (cfg : Config)
    (w w2 : PrivyWalletProvider) (msg : String) (t t2 : Option PreparedTx)
    (a : CreateSafeArgs) (e acct : String)
    (hnone : w.account = none)
    (hacct : w2.account = some acct) (hnochain : w2.chain = none)
    (hinit : env.safeInitPredicted (activeChain cfg) "" (safeAccountConfigOf a) =
      .error e) :
    PrivyWalletProvider.getAddress w = "" ∧
    PrivyWalletProvider.signMessage env w msg = .error "Account not found" ∧
    PrivyWalletProvider.sendTransaction env w t = .error "Account not found" ∧
    PrivyWalletProvider.getBalance env w = .error "Account not found" ∧
    PrivyWalletProvider.sendTransaction env w2 t2 = .error "Chain not found" ∧
    SafeActionProvider.createSafe env cfg w a = .error e := by
  refine ⟨?_, ?_, ?_, ?_, ?_, ?_⟩
  · simp [PrivyWalletProvider.getAddress, hnone]
  · simp [PrivyWalletProvider.signMessage, hnone]
  · simp [PrivyWalletProvider.sendTransaction, hnone]
  · simp [PrivyWalletProvider.getBalance, hnone]
  · simp [PrivyWalletProvider.sendTransaction, hacct, hnochain]
  · simp [SafeActionProvider.createSafe, createSafeBody,
      PrivyWalletProvider.getAddress, hnone, hinit]

/-- Witness for C8 at concrete wallets and an environment that rejects the
empty-string signer. -/
theorem c8_unconfigured_wallet_behaviour_witness :
    PrivyWalletProvider.getAddress emptyWallet = "" ∧
    PrivyWalletProvider.signMessage emptySignerEnv emptyWallet "m" =
      .error "Account not found" ∧
    PrivyWalletProvider.sendTransaction emptySignerEnv emptyWallet none =
      .error "Account not found" ∧
    PrivyWalletProvider.getBalance emptySignerEnv emptyWallet =
      .error "Account not found" ∧
    PrivyWalletProvider.sendTransaction emptySignerEnv chainlessWallet none =
      .error "Chain not found" ∧
    SafeActionProvider.createSafe emptySignerEnv testConfig emptyWallet createArgs =
      .error "no signer" :=
  c8_unconfigured_wallet_behaviour emptySignerEnv testConfig emptyWallet chainlessWallet
    "m" none none createArgs "no signer" "0xalice" rfl rfl rfl rfl

/-- Inversion of a completed `createSafe` body: the success payload's
`threshold` and `owners` are exactly the action's input arguments. -/
theorem createSafeBody_ok_inv {env : Env} {cfg : Config}
    {w : PrivyWalletProvider} {a : CreateSafeArgs} {r : CreateSafeOk}
    (h : createSafeBody env cfg w a = .ok r) :
    r.threshold = a.threshold ∧ r.owners = a.owners := by
  rcases h1 : env.safeInitPredicted (activeChain cfg)
      (PrivyWalletProvider.getAddress w) (safeAccountConfigOf a) with e1 | u1
  · simp [createSafeBody, h1] at h
  · cases u1
    rcases h2 : env.predictedSafeAddress (safeAccountConfigOf a) with e2 | pa
    · simp [createSafeBody, h1, h2] at h
    · rcases h3 : env.createSafeDeploymentTransaction (safeAccountConfigOf a) with e3 | dt
      · simp [createSafeBody, h1, h2, h3] at h
      · rcases h4 : env.getExternalSigner with e4 | u4
        · simp [createSafeBody, h1, h2, h3, h4] at h
        · cases u4
          rcases h5 : env.prepareTransactionRequest
              { toAddress := dt.toAddress, value := dt.value,
                data := dt.data, chain := activeChain cfg } with e5 | otx
          · simp [createSafeBody, h1, h2, h3, h4, h5] at h
          · rcases otx with _ | tx
            · simp [createSafeBody, h1, h2, h3, h4, h5] at h
            · rcases h6 : PrivyWalletProvider.sendTransaction env w (some tx) with e6 | th
              · simp [createSafeBody, h1, h2, h3, h4, h5, h6] at h
              · rcases h7 : env.waitForTransactionReceipt th with e7 | u7
                · simp [createSafeBody, h1, h2, h3, h4, h5, h6, h7] at h
                · cases u7
                  rcases h8 : env.connect pa with e8 | u8
                  · simp [createSafeBody, h1, h2, h3, h4, h5, h6, h7, h8] at h
                  · cases u8
                    rcases h9 : env.connectedSafeAddress pa with e9 | da
                    · simp [createSafeBody, h1, h2, h3, h4, h5, h6, h7, h8, h9] at h
                    · simp [createSafeBody, h1, h2, h3, h4, h5, h6, h7, h8, h9] at h
                      subst h
                      exact ⟨rfl, rfl⟩

/-- C7: on success `createSafe` returns a payload whose `owners` and
`threshold` fields equal the input arguments unchanged, the
`SafeAccountConfig` handed to the deployment is built from exactly those
inputs, and on any failure the action returns the error value rather than
throwing. -/
theorem c7_createSafe_echoes_config (env : Env) (cfg : Config)
    (w : PrivyWalletProvider) (a : CreateSafeArgs) :
    (∀ s h t o, SafeActionProvider.createSafe env cfg w a = .ok s h t o →
      t = a.threshold ∧ o = a.owners) ∧
    (safeAccountConfigOf a).owners = a.owners ∧
    (safeAccountConfigOf a).threshold = a.threshold ∧
    (∀ e, createSafeBody env cfg w a = .error e →
      SafeActionProvider.createSafe env cfg w a = .error e) := by
  refine ⟨?_, rfl, rfl, ?_⟩
  · intro s h t o heq
    cases hb : createSafeBody env cfg w a with
    | error e => simp [SafeActionProvider.createSafe, hb] at heq
    | ok r =>
      have hr := createSafeBody_ok_inv hb
      simp [SafeActionProvider.createSafe, hb] at heq
      obtain ⟨hs, hh, ht, ho⟩ := heq
      constructor
      · rw [← ht]
        exact hr.1
      · rw [← ho]
        exact hr.2
  · intro e hb
    simp [SafeActionProvider.createSafe, hb]

/-- Witness for C7: a successful concrete run returns the input threshold `2`
and the input owner list unchanged. -/
theorem c7_createSafe_echoes_config_witness :
    SafeActionProvider.createSafe testEnv testConfig aliceWallet createArgs =
      .ok "0xpredicted" "0xsent" 2 ["0xalice", "0xbob"] ∧
    (2 = createArgs.threshold ∧ ["0xalice", "0xbob"] = createArgs.owners) :=
  ⟨rfl, (c7_createSafe_echoes_config testEnv testConfig aliceWallet createArgs).1
    "0xpredicted" "0xsent" 2 ["0xalice", "0xbob"] rfl⟩

/-- C2: when every underlying call succeeds, `createSafeTransaction` builds
the transaction, computes its hash, signs it with the caller's wallet,
persists the signed transaction keyed by that hash, and returns the hash with
signature count `1`; an immediately following lookup by that hash returns a
row whose signature count is exactly `1`. -/
theorem c2_createSafeTransaction_count_one (env : Env) (cfg : Config)
    (w : PrivyWalletProvider) (db : Db) (args : CreateSafeTransactionArgs)
    (acct d h m sig : String)
    (hacct : w.account = some acct)
    (hinit : env.safeInitExisting (activeChain cfg)
      (PrivyWalletProvider.getAddress w) args.safeAddress = .ok ())
    (hcreate : env.createTransaction args.safeAddress args.transactions = .ok d)
    (hhash : env.getTransactionHash d = .ok h)
    (hsm : env.walletSignMessage acct h = .ok m)
    (hadj : env.adjustVInSignature m h (PrivyWalletProvider.getAddress w) = .ok sig) :
    SafeActionProvider.createSafeTransaction env cfg w db args =
      (.ok h 1,
       saveSafeTransaction (saveSafeTransaction db ⟨h, args.safeAddress, ⟨d, []⟩⟩)
         ⟨h, args.safeAddress, ⟨d, [(PrivyWalletProvider.getAddress w, sig)]⟩⟩) ∧
    ∃ rec, getSafeTransactionByHash
        (SafeActionProvider.createSafeTransaction env cfg w db args).2 h = some rec ∧
      rec.signatureCount = 1 := by
  have hrun : SafeActionProvider.createSafeTransaction env cfg w db args =
      (.ok h 1,
       saveSafeTransaction (saveSafeTransaction db ⟨h, args.safeAddress, ⟨d, []⟩⟩)
         ⟨h, args.safeAddress, ⟨d, [(PrivyWalletProvider.getAddress w, sig)]⟩⟩) := by
    simp [SafeActionProvider.createSafeTransaction, createSafeTransactionBody,
      signTransaction, getTransactionByHash, PrivyWalletProvider.signMessage,
      hacct, hinit, hcreate, hhash, hsm, hadj, getSafeTransactionByHash_save_mk,
      reconstructTransaction, rebuildSignatures, EthSafeTransaction.addSignature, mapSet]
  refine ⟨hrun, ⟨h, args.safeAddress, ⟨d, [(PrivyWalletProvider.getAddress w, sig)]⟩⟩, ?_, rfl⟩
  rw [hrun]
  exact getSafeTransactionByHash_save_mk _ _ _ _

/-- Witness for C2 at a concrete environment and an empty database. -/
theorem c2_createSafeTransaction_count_one_witness :
    (SafeActionProvider.createSafeTransaction testEnv testConfig aliceWallet []
      createTxArgs).1 = .ok "0xsafetxhash" 1 ∧
    ∃ rec, getSafeTransactionByHash
        (SafeActionProvider.createSafeTransaction testEnv testConfig aliceWallet []
          createTxArgs).2 "0xsafetxhash" = some rec ∧
      rec.signatureCount = 1 := by
  have t := c2_createSafeTransaction_count_one testEnv testConfig aliceWallet []
    createTxArgs "0xalice" "txdata" "0xsafetxhash" "sig:0xsafetxhash" "sig:0xsafetxhash"
    rfl rfl rfl rfl rfl rfl
  exact ⟨by rw [t.1], t.2⟩

/-- C5: for any persisted row — whatever its recorded signature set, empty
included — `executeSafeTransaction` loads it, submits it through the wallet
provider, waits for confirmation, and returns the execution hash; no local
check of the signature count guards the submission. -/
theorem c5_execute_no_local_signature_check (env : Env) (cfg : Config)
    (w : PrivyWalletProvider) (db : Db) (args : ExecuteSafeTransactionArgs)
    (rec : StoredSafeTransaction) (acct enc execHash : String) (ch : Chain)
    (p : Option PreparedTx)
    (hget : getSafeTransactionByHash db args.transactionHash = some rec)
    (hinit : env.safeInitExisting (activeChain cfg)
      (PrivyWalletProvider.getAddress w) args.safeAddress = .ok ())
    (henc : env.getEncodedTransaction (reconstructTransaction rec.transaction) = .ok enc)
    (hsigner : env.getExternalSigner = .ok ())
    (hprep : env.prepareTransactionRequest
      { toAddress := args.safeAddress, value := 0,
        data := enc ++ env.getOnchainIdentifier, chain := activeChain cfg } = .ok p)
    (hacct : w.account = some acct) (hch : w.chain = some ch)
    (hsend : env.walletSendTransaction acct ch p = .ok execHash)
    (hwait : env.waitForTransactionReceipt execHash = .ok ()) :
    SafeActionProvider.executeSafeTransaction env cfg w db args = .ok execHash := by
  simp [SafeActionProvider.executeSafeTransaction, executeSafeTransactionBody,
    getTransactionByHash, PrivyWalletProvider.sendTransaction, hget, hinit, henc,
    hsigner, hprep, hacct, hch, hsend, hwait]

/-- Witness for C5: execution succeeds on a stored row with zero recorded
signatures. -/
theorem c5_execute_no_local_signature_check_witness :
    storedRec.transaction.signatures.length = 0 ∧
    SafeActionProvider.executeSafeTransaction testEnv testConfig aliceWallet testDb
      execArgs = .ok "0xsent" :=
  ⟨rfl, c5_execute_no_local_signature_check testEnv testConfig aliceWallet testDb
    execArgs storedRec "0xalice" "0xencoded" "0xsent" baseSepolia
    (some { toAddress := "0xsafe", value := 0, data := "0xencoded" ++ "5afe",
            chain := activeChain testConfig })
    rfl rfl rfl rfl rfl rfl rfl rfl rfl⟩

/-- The inversion of a successful `sign_safe_transaction` run restated with
the action arguments given componentwise. -/
theorem signSafeTransaction_ok_inv2 {env : Env} {w : PrivyWalletProvider}
    {db : Db} {sa th h : String} {c : Nat} {db' : Db}
    (heq : SafeActionProvider.signSafeTransaction env w db ⟨sa, th⟩ = (.ok h c, db')) :
    ∃ rec sig,
      getSafeTransactionByHash db th = some rec ∧
      h = th ∧
      c = (mapSet (rebuildSignatures rec.transaction.signatures)
            (PrivyWalletProvider.getAddress w) sig).length ∧
      db' = saveSafeTransaction db
        ⟨th, sa, ⟨rec.transaction.data,
          mapSet (rebuildSignatures rec.transaction.signatures)
            (PrivyWalletProvider.getAddress w) sig⟩⟩ :=
  signSafeTransaction_ok_inv heq

/-- C3: across consecutive successful `signSafeTransaction` calls on the same
transaction hash the returned signature count never decreases (for any
signers, distinct or not); and a wallet that has already signed can call
`signSafeTransaction` again — the duplicate call succeeds and returns the
same count, settling that a duplicate signer does not increase the count. -/
theorem c3_signature_count_monotone :
    (∀ (env1 env2 : Env) (w1 w2 : PrivyWalletProvider) (db db1 db2 : Db)
        (sa1 sa2 h : String) (c1 c2 : Nat),
      SafeActionProvider.signSafeTransaction env1 w1 db ⟨sa1, h⟩ = (.ok h c1, db1) →
      SafeActionProvider.signSafeTransaction env2 w2 db1 ⟨sa2, h⟩ = (.ok h c2, db2) →
      c1 ≤ c2) ∧
    (∀ (env1 env2 : Env) (w : PrivyWalletProvider) (db db1 : Db)
        (sa1 sa2 h : String) (c1 : Nat) (acct m2 v2 : String),
      SafeActionProvider.signSafeTransaction env1 w db ⟨sa1, h⟩ = (.ok h c1, db1) →
      w.account = some acct →
      env2.walletSignMessage acct h = .ok m2 →
      env2.adjustVInSignature m2 h (PrivyWalletProvider.getAddress w) = .ok v2 →
      (SafeActionProvider.signSafeTransaction env2 w db1 ⟨sa2, h⟩).1 = .ok h c1) := by
  constructor
  · intro env1 env2 w1 w2 db db1 db2 sa1 sa2 h c1 c2 hs1 hs2
    obtain ⟨rec1, sig1, hget1, hh1, hc1, hdb1⟩ := signSafeTransaction_ok_inv2 hs1
    obtain ⟨rec2, sig2, hget2, hh2, hc2, hdb2⟩ := signSafeTransaction_ok_inv2 hs2
    subst hdb1
    rw [getSafeTransactionByHash_save_mk] at hget2
    have hrec2 : rec2 = ⟨h, sa1, ⟨rec1.transaction.data,
        mapSet (rebuildSignatures rec1.transaction.signatures)
          (PrivyWalletProvider.getAddress w1) sig1⟩⟩ := by
      injection hget2 with hx
      exact hx.symm
    have hsig2 : rec2.transaction.signatures =
        mapSet (rebuildSignatures rec1.transaction.signatures)
          (PrivyWalletProvider.getAddress w1) sig1 := by
      rw [hrec2]
    have hnodup : keysNodup (mapSet (rebuildSignatures rec1.transaction.signatures)
        (PrivyWalletProvider.getAddress w1) sig1) :=
      keysNodup_mapSet _ _ _ (keysNodup_rebuildSignatures _)
    rw [hsig2, rebuildSignatures_of_keysNodup _ hnodup] at hc2
    rw [hc1, hc2]
    exact length_le_mapSet _ _ _
  · intro env1 env2 w db db1 sa1 sa2 h c1 acct m2 v2 hs1 hacct hsm hadj
    obtain ⟨rec1, sig1, hget1, hh1, hc1, hdb1⟩ := signSafeTransaction_ok_inv2 hs1
    subst hdb1
    have hget2 : getSafeTransactionByHash
        (saveSafeTransaction db ⟨h, sa1, ⟨rec1.transaction.data,
          mapSet (rebuildSignatures rec1.transaction.signatures)
            (PrivyWalletProvider.getAddress w) sig1⟩⟩) h =
        some ⟨h, sa1, ⟨rec1.transaction.data,
          mapSet (rebuildSignatures rec1.transaction.signatures)
            (PrivyWalletProvider.getAddress w) sig1⟩⟩ :=
      getSafeTransactionByHash_save_mk _ _ _ _
    have heq := @signSafeTransaction_eq env2 w
      (saveSafeTransaction db ⟨h, sa1, ⟨rec1.transaction.data,
        mapSet (rebuildSignatures rec1.transaction.signatures)
          (PrivyWalletProvider.getAddress w) sig1⟩⟩)
      ⟨sa2, h⟩
      ⟨h, sa1, ⟨rec1.transaction.data,
        mapSet (rebuildSignatures rec1.transaction.signatures)
          (PrivyWalletProvider.getAddress w) sig1⟩⟩
      acct m2 v2 hget2 hacct hsm hadj
    rw [heq]
    have hnodup : keysNodup (mapSet (rebuildSignatures rec1.transaction.signatures)
        (PrivyWalletProvider.getAddress w) sig1) :=
      keysNodup_mapSet _ _ _ (keysNodup_rebuildSignatures _)
    simp only [rebuildSignatures_of_keysNodup _ hnodup]
    rw [mapSet_length_of_mem _ _ _ (mem_mapSet_keys _ _ _), hc1]

/-- The test row after the first (alice) signature. -/
def signedOnceRec : StoredSafeTransaction where
  transactionHash := "0xsafetxhash"
  safeAddress := "0xsafe"
  transaction := { data := "txdata", signatures := [("0xalice", "sig:0xsafetxhash")] }

/-- The database after alice has signed the test transaction once. -/
def signedOnceDb : Db := [signedOnceRec]

/-- The database after alice and then bob have signed the test
transaction. -/
def signedTwiceDb : Db :=
  [{ transactionHash := "0xsafetxhash", safeAddress := "0xsafe",
     transaction := { data := "txdata",
                      signatures := [("0xalice", "sig:0xsafetxhash"),
                                     ("0xbob", "sig:0xsafetxhash")] } }]

/-- Witness for C3: alice signs (count 1), then a second distinct signer
yields count 2 with 1 ≤ 2, while alice signing again on the once-signed
database succeeds and still reports count 1. -/
theorem c3_signature_count_monotone_witness :
    SafeActionProvider.signSafeTransaction testEnv aliceWallet testDb
      ⟨"0xsafe", "0xsafetxhash"⟩ = (.ok "0xsafetxhash" 1, signedOnceDb) ∧
    SafeActionProvider.signSafeTransaction testEnv bobWallet signedOnceDb
      ⟨"0xsafe", "0xsafetxhash"⟩ = (.ok "0xsafetxhash" 2, signedTwiceDb) ∧
    (1 : Nat) ≤ 2 ∧
    (SafeActionProvider.signSafeTransaction testEnv aliceWallet signedOnceDb
      ⟨"0xsafe", "0xsafetxhash"⟩).1 = .ok "0xsafetxhash" 1 := by
  refine ⟨rfl, rfl, ?_, ?_⟩
  · exact c3_signature_count_monotone.1 testEnv testEnv aliceWallet bobWallet testDb
      signedOnceDb signedTwiceDb "0xsafe" "0xsafe" "0xsafetxhash" 1 2 rfl rfl
  · exact c3_signature_count_monotone.2 testEnv testEnv aliceWallet testDb
      signedOnceDb "0xsafe" "0xsafe" "0xsafetxhash" 1 "0xalice" "sig:0xsafetxhash"
      "sig:0xsafetxhash" rfl rfl rfl rfl

/-- C6: persisting a transaction and loading it back reconstructs it with the
full prior signature set intact, and `signSafeTransaction` re-persists the
stored transaction with every prior signature reattached plus exactly one new
signature from the calling wallet, returning the updated count. -/
theorem c6_sign_reconstructs_and_adds_one :
    (∀ (db : Db) (rec : StoredSafeTransaction), keysNodup rec.transaction.signatures →
      getTransactionByHash (saveSafeTransaction db rec) rec.transactionHash =
        .ok rec.transaction) ∧
    (∀ (env : Env) (w : PrivyWalletProvider) (db : Db)
        (args : SignSafeTransactionArgs) (rec : StoredSafeTransaction)
        (acct m sig : String),
      getSafeTransactionByHash db args.transactionHash = some rec →
      keysNodup rec.transaction.signatures →
      acct ∉ rec.transaction.signatures.map Prod.fst →
      w.account = some acct →
      env.walletSignMessage acct args.transactionHash = .ok m →
      env.adjustVInSignature m args.transactionHash
        (PrivyWalletProvider.getAddress w) = .ok sig →
      SafeActionProvider.signSafeTransaction env w db args =
        (.ok args.transactionHash (rec.transaction.signatures.length + 1),
         saveSafeTransaction db
           { transactionHash := args.transactionHash, safeAddress := args.safeAddress,
             transaction := { data := rec.transaction.data,
                              signatures := rec.transaction.signatures
                                ++ [(acct, sig)] } })) := by
  constructor
  · intro db rec hnodup
    simp [getTransactionByHash, getSafeTransactionByHash_save, reconstructTransaction,
      rebuildSignatures_of_keysNodup _ hnodup]
  · intro env w db args rec acct m sig hget hnodup hnotmem hacct hsm hadj
    have haddr : PrivyWalletProvider.getAddress w = acct := by
      simp [PrivyWalletProvider.getAddress, hacct]
    have heq := signSafeTransaction_eq hget hacct hsm hadj
    rw [heq, haddr, rebuildSignatures_of_keysNodup _ hnodup,
      mapSet_of_not_mem _ _ _ hnotmem]
    simp

/-- Witness for C6: the persisted once-signed row loads back with its
signature intact, and bob's signature extends alice's to count 2. -/
theorem c6_sign_reconstructs_and_adds_one_witness :
    getTransactionByHash (saveSafeTransaction [] signedOnceRec)
      signedOnceRec.transactionHash = .ok signedOnceRec.transaction ∧
    SafeActionProvider.signSafeTransaction testEnv bobWallet signedOnceDb signArgs =
      (.ok "0xsafetxhash" 2, signedTwiceDb) := by
  have t := c6_sign_reconstructs_and_adds_one
  exact ⟨t.1 [] signedOnceRec (by decide),
    t.2 testEnv bobWallet signedOnceDb signArgs signedOnceRec "0xbob"
      "sig:0xsafetxhash" "sig:0xsafetxhash" rfl (by decide) (by decide) rfl rfl rfl⟩
